import Mathlib

/-!
# Capture Sequencing & Report Reconciliation Engine — verification

Shallow embedding of the core of the `ultra_app` repository
(`domain/entities.py`, `domain/policies.py`, `use_cases/capture_controller.py`,
`use_cases/export_report.py`, `interface_adapters/report_writer.py`) and
theorems settling the claims about it.

Conventions of the embedding:
* Python `Optional[T]` becomes `Option T`; a raised exception becomes
  `Except.error` with the exception's message string.
* Python `float` values are modelled as exact rationals (`ℚ`); Python's
  built-in `round(x, 2)` rounds half-to-even, which is modelled exactly.
* Mutable methods on the session state become functions
  `OperationState → ... → OperationState` (or `Except String _` when the
  Python method can raise).
* `np.ndarray` images and raw camera frames are opaque: type parameters
  `Img` and `Frame`.
-/

namespace UltraApp

/-- The two capture channels. `entities.CaptureSlot.eye` is the string
`"Right"` or `"Left"`; every constructor site in the code
(`SixImagesPolicy.initial_order`) uses exactly these two values, so the
channel is embedded as a two-valued type. -/
inductive Eye where
  | Right : Eye
  | Left : Eye
deriving DecidableEq, Repr

/-- `entities.CaptureSlot`: frozen dataclass `(eye, index_in_eye)`. -/
structure CaptureSlot where
  eye : Eye
  index_in_eye : Nat
deriving DecidableEq, Repr

/-- `entities.OperationState`: the mutable session state
(`order`, `cursor`, `images_right`, `images_left`). -/
structure OperationState (Img : Type) where
  order : List CaptureSlot
  cursor : Nat
  images_right : List Img
  images_left : List Img
deriving DecidableEq

/-- `OperationState.total`: `len(self.order)`. -/
def OperationState.total {Img : Type} (s : OperationState Img) : Nat :=
  s.order.length

/-- `OperationState.is_complete`: `self.cursor >= self.total`. -/
def OperationState.is_complete {Img : Type} (s : OperationState Img) : Bool :=
  s.total ≤ s.cursor

/-- `OperationState.current_slot`: `self.order[self.cursor]`; `none` models
the `IndexError` Python would raise when the cursor is out of range. -/
def OperationState.current_slot {Img : Type} (s : OperationState Img) :
    Option CaptureSlot :=
  s.order[s.cursor]?

/-- `policies.SixImagesPolicy.initial_order`:
`[CaptureSlot("Right", i) for i in 1..3] + [CaptureSlot("Left", i) for i in 1..3]`. -/
def SixImagesPolicy.initial_order : List CaptureSlot :=
  [⟨Eye.Right, 1⟩, ⟨Eye.Right, 2⟩, ⟨Eye.Right, 3⟩,
   ⟨Eye.Left, 1⟩, ⟨Eye.Left, 2⟩, ⟨Eye.Left, 3⟩]

/-- `policies.SixImagesPolicy.store_image`: append the processed image to the
bucket named by the current slot's eye, then `state.advance()` (cursor + 1).
An out-of-range cursor is the `IndexError` of `current_slot`. -/
def SixImagesPolicy.store_image {Img : Type} (s : OperationState Img)
    (processed : Img) : Except String (OperationState Img) :=
  match s.current_slot with
  | none => Except.error "IndexError"
  | some slot =>
    match slot.eye with
    | Eye.Right =>
        Except.ok { s with images_right := s.images_right ++ [processed],
                           cursor := s.cursor + 1 }
    | Eye.Left =>
        Except.ok { s with images_left := s.images_left ++ [processed],
                           cursor := s.cursor + 1 }

/-- `capture_controller.CaptureController.capture`: raise
`RuntimeError("All 6 images already captured.")` when complete, otherwise
process the frame and delegate to the policy's `store_image`. The external
`ProcessorGateway.process` is the function argument `processor`. -/
def CaptureController.capture {Img Frame : Type} (processor : Frame → Img)
    (s : OperationState Img) (frame : Frame) :
    Except String (OperationState Img) :=
  if s.is_complete then Except.error "All 6 images already captured."
  else SixImagesPolicy.store_image s (processor frame)

/-- `capture_controller.CaptureController.undo`: no-op at cursor 0; otherwise
decrement the cursor, read the slot at the new cursor, and `pop()` (remove
the last element) from the matching bucket only when it is non-empty. -/
def CaptureController.undo {Img : Type} (s : OperationState Img) :
    Except String (OperationState Img) :=
  if s.cursor = 0 then Except.ok s
  else
    let c := s.cursor - 1
    match s.order[c]? with
    | none => Except.error "IndexError"
    | some slot =>
      match slot.eye with
      | Eye.Right =>
          if s.images_right.isEmpty then Except.ok { s with cursor := c }
          else Except.ok { s with cursor := c,
                                  images_right := s.images_right.dropLast }
      | Eye.Left =>
          if s.images_left.isEmpty then Except.ok { s with cursor := c }
          else Except.ok { s with cursor := c,
                                  images_left := s.images_left.dropLast }

/-- The state built by `CaptureController.__init__` (and by `reset`):
`OperationState(order=self.policy.initial_order())`, cursor 0, empty buckets. -/
def CaptureController.fresh (Img : Type) : OperationState Img :=
  { order := SixImagesPolicy.initial_order, cursor := 0,
    images_right := [], images_left := [] }

/-- `capture_controller.CaptureController.reset`: replace the session state
with a freshly constructed one. -/
def CaptureController.reset {Img : Type} (_s : OperationState Img) :
    OperationState Img :=
  CaptureController.fresh Img

/-- A concrete completed session state over `Nat` images, used to
instantiate theorems with hypotheses. -/
def completedState : OperationState Nat :=
  { order := SixImagesPolicy.initial_order, cursor := 6,
    images_right := [10, 11, 12], images_left := [20, 21, 22] }

/-- C1: for every session state with `cursor == 6` (and the fixed 6-slot
order, so `is_complete()` is true), `capture` fails with the recoverable
"All 6 images already captured." sequencing error raised to the caller; no
successor state is produced, so the session state (cursor and both image
buckets) is untouched and the session remains usable. -/
theorem capture_when_complete_errors {Img Frame : Type}
    (processor : Frame → Img) (s : OperationState Img) (frame : Frame)
    (hcur : s.cursor = 6) (htot : s.total = 6) :
    s.is_complete = true ∧
    CaptureController.capture processor s frame =
      Except.error "All 6 images already captured." := by
  have hc : s.is_complete = true := by
    simp [OperationState.is_complete, hcur, htot]
  exact ⟨hc, by simp [CaptureController.capture, hc]⟩

/-- Witness for C1 at the concrete completed state. -/
theorem capture_when_complete_errors_witness :
    completedState.is_complete = true ∧
    CaptureController.capture (fun n => n + 1) completedState 0 =
      Except.error "All 6 images already captured." :=
  capture_when_complete_errors (fun n => n + 1) completedState 0 rfl rfl

/-- Iterated `capture`: one `capture` call per frame of `frames`, in order,
stopping at the first raised error (as a caller's loop would). -/
def runCaptures {Img Frame : Type} (processor : Frame → Img) :
    OperationState Img → List Frame → Except String (OperationState Img)
  | s, [] => Except.ok s
  | s, f :: fs =>
    match CaptureController.capture processor s f with
    | Except.ok s' => runCaptures processor s' fs
    | Except.error e => Except.error e

/-- The session state after the processed images `ps` (at most 6) have been
captured in order from a fresh session: cursor at `ps.length`, the first
three in the Right bucket, the rest in the Left bucket. -/
def midState {Img : Type} (ps : List Img) : OperationState Img :=
  { order := SixImagesPolicy.initial_order, cursor := ps.length,
    images_right := ps.take 3, images_left := ps.drop 3 }

lemma capture_midState {Img Frame : Type} (processor : Frame → Img)
    (ps : List Img) (f : Frame) (h : ps.length < 6) :
    CaptureController.capture processor (midState ps) f =
      Except.ok (midState (ps ++ [processor f])) := by
  have hnc : (midState ps).is_complete = false := by
    simp [OperationState.is_complete, OperationState.total, midState,
      SixImagesPolicy.initial_order]
    omega
  rcases Nat.lt_or_ge ps.length 3 with hlt | hge
  · -- cursor in 0..2: the slot is a Right slot
    have e1 : (ps ++ [processor f]).take 3 = ps.take 3 ++ [processor f] := by
      rw [List.take_of_length_le (l := ps) (by omega),
          List.take_of_length_le (by simp; omega)]
    have e2 : (ps ++ [processor f]).drop 3 = [] :=
      List.drop_eq_nil_of_le (by simp; omega)
    have e3 : ps.drop 3 = [] := List.drop_eq_nil_of_le (by omega)
    have hslot : SixImagesPolicy.initial_order[ps.length]? =
        some ⟨Eye.Right, ps.length + 1⟩ := by
      have h3 : ps.length = 0 ∨ ps.length = 1 ∨ ps.length = 2 := by omega
      rcases h3 with hn | hn | hn <;> rw [hn] <;> rfl
    have ho : (midState ps : OperationState Img).order = SixImagesPolicy.initial_order := rfl
    have hc : (midState ps : OperationState Img).cursor = ps.length := rfl
    have hr : (midState ps : OperationState Img).images_right = ps.take 3 := rfl
    have hl : (midState ps : OperationState Img).images_left = ps.drop 3 := rfl
    simp only [CaptureController.capture, hnc, Bool.false_eq_true, if_false,
      SixImagesPolicy.store_image, OperationState.current_slot, ho, hc, hr,
      hl, hslot]
    simp [midState, e1, e2, e3]
  · -- cursor in 3..5: the slot is a Left slot
    have e1 : (ps ++ [processor f]).take 3 = ps.take 3 :=
      List.take_append_of_le_length hge
    have e2 : (ps ++ [processor f]).drop 3 = ps.drop 3 ++ [processor f] :=
      List.drop_append_of_le_length hge
    have hslot : SixImagesPolicy.initial_order[ps.length]? =
        some ⟨Eye.Left, ps.length - 2⟩ := by
      have h3 : ps.length = 3 ∨ ps.length = 4 ∨ ps.length = 5 := by omega
      rcases h3 with hn | hn | hn <;> rw [hn] <;> rfl
    have ho : (midState ps : OperationState Img).order = SixImagesPolicy.initial_order := rfl
    have hc : (midState ps : OperationState Img).cursor = ps.length := rfl
    have hr : (midState ps : OperationState Img).images_right = ps.take 3 := rfl
    have hl : (midState ps : OperationState Img).images_left = ps.drop 3 := rfl
    simp only [CaptureController.capture, hnc, Bool.false_eq_true, if_false,
      SixImagesPolicy.store_image, OperationState.current_slot, ho, hc, hr,
      hl, hslot]
    simp [midState, e1, e2]

lemma runCaptures_midState {Img Frame : Type} (processor : Frame → Img)
    (frames : List Frame) :
    ∀ (ps : List Img), ps.length + frames.length ≤ 6 →
      runCaptures processor (midState ps) frames =
        Except.ok (midState (ps ++ frames.map processor)) := by
  induction frames with
  | nil => intro ps _; simp [runCaptures]
  | cons f fs ih =>
    intro ps hlen
    have hstep := capture_midState processor ps f (by simp at hlen; omega)
    have htail := ih (ps ++ [processor f]) (by simp at hlen ⊢; omega)
    simp only [runCaptures, hstep, htail, List.map_cons, List.append_assoc,
      List.singleton_append]

/-- C2: starting from a fresh session, any `k ≤ 6` capture calls all succeed,
and afterwards `cursor = k`, the two buckets together hold exactly `k`
items, the first `min(k,3)` processed items sit in order in the Right
(Primary) bucket, and every item beyond the third sits in the Left
(Secondary) bucket — so the 4th capture lands in Secondary regardless of
the item's content. -/
theorem captures_from_fresh {Img Frame : Type} (processor : Frame → Img)
    (frames : List Frame) (hk : frames.length ≤ 6) :
    runCaptures processor (CaptureController.fresh Img) frames =
      Except.ok { order := SixImagesPolicy.initial_order,
                  cursor := frames.length,
                  images_right := (frames.map processor).take 3,
                  images_left := (frames.map processor).drop 3 } ∧
    ((frames.map processor).take 3).length = min frames.length 3 ∧
    ((frames.map processor).take 3).length +
      ((frames.map processor).drop 3).length = frames.length := by
  have hfresh : (CaptureController.fresh Img) = midState [] := by
    simp [CaptureController.fresh, midState]
  have hrun := runCaptures_midState processor frames [] (by simpa using hk)
  refine ⟨?_, ?_, ?_⟩
  · rw [hfresh, hrun]; simp [midState]
  · simp [List.length_take, Nat.min_comm]
  · simp only [List.length_take, List.length_drop, List.length_map]
    omega

/-- Witness for C2 on four concrete frames: the 4th processed item lands in
the Left (Secondary) bucket. -/
theorem captures_from_fresh_witness :
    runCaptures (fun n => n * 10) (CaptureController.fresh Nat) [1, 2, 3, 4] =
      Except.ok { order := SixImagesPolicy.initial_order, cursor := 4,
                  images_right := [10, 20, 30], images_left := [40] } ∧
    ([10, 20, 30] : List Nat).length = min 4 3 ∧
    ([10, 20, 30] : List Nat).length + ([40] : List Nat).length = 4 := by
  have h := captures_from_fresh (fun n => n * 10) [1, 2, 3, 4] (by decide)
  simpa using h

/-- One command issued to the controller: `capture(frame)`, `undo()` or
`reset()`. -/
inductive Op (Frame : Type) where
  | capture (frame : Frame)
  | undo
  | reset

/-- Execute one command on the session state. A raised sequencing error
(`capture` when complete) propagates to the caller and leaves the state
unchanged, so the session continues from the same state. -/
def applyOp {Img Frame : Type} (processor : Frame → Img)
    (s : OperationState Img) : Op Frame → OperationState Img
  | Op.capture f =>
    match CaptureController.capture processor s f with
    | Except.ok s' => s'
    | Except.error _ => s
  | Op.undo =>
    match CaptureController.undo s with
    | Except.ok s' => s'
    | Except.error _ => s
  | Op.reset => CaptureController.reset s

/-- Execute a finite sequence of commands from a given state. -/
def runOps {Img Frame : Type} (processor : Frame → Img)
    (s : OperationState Img) (ops : List (Op Frame)) : OperationState Img :=
  ops.foldl (applyOp processor) s

/-- The inductive invariant of the session state: the slot order is the
fixed 6-slot order, the cursor stays in `[0, 6]`, and the bucket lengths are
determined by the cursor (`min(cursor, 3)` on the Right, the rest on the
Left). -/
def GoodState {Img : Type} (s : OperationState Img) : Prop :=
  s.order = SixImagesPolicy.initial_order ∧ s.cursor ≤ 6 ∧
  s.images_right.length = min s.cursor 3 ∧
  s.images_left.length = s.cursor - 3

lemma goodState_fresh {Img : Type} : GoodState (CaptureController.fresh Img) := by
  simp [GoodState, CaptureController.fresh]

lemma applyOp_good {Img Frame : Type} (processor : Frame → Img)
    (s : OperationState Img) (op : Op Frame) (hs : GoodState s) :
    GoodState (applyOp processor s op) := by
  obtain ⟨ord, c, r, l⟩ := s
  obtain ⟨hord, hc, hr, hl⟩ := hs
  simp only at hord hc hr hl
  subst hord
  cases op with
  | reset =>
    simpa [applyOp, CaptureController.reset] using goodState_fresh
  | capture f =>
    interval_cases c <;>
      simp_all [applyOp, CaptureController.capture, OperationState.is_complete,
        OperationState.total, SixImagesPolicy.initial_order,
        SixImagesPolicy.store_image, OperationState.current_slot, GoodState]
  | undo =>
    interval_cases c
    all_goals try have hrne : r ≠ [] := by rw [← List.length_pos]; omega
    all_goals try have hlne : l ≠ [] := by rw [← List.length_pos]; omega
    all_goals
      simp_all [applyOp, CaptureController.undo,
        SixImagesPolicy.initial_order, GoodState,
        List.isEmpty_iff_length_eq_zero, List.length_dropLast]

/-- C3: every state reachable from a fresh session by a finite sequence of
`capture`, `undo` and `reset` commands satisfies the invariants
`0 ≤ cursor ≤ 6` and `len(images_right) + len(images_left) == cursor`. -/
theorem reachable_invariant {Img Frame : Type} (processor : Frame → Img)
    (ops : List (Op Frame)) :
    (runOps processor (CaptureController.fresh Img) ops).cursor ≤ 6 ∧
    (runOps processor (CaptureController.fresh Img) ops).images_right.length +
      (runOps processor (CaptureController.fresh Img) ops).images_left.length =
      (runOps processor (CaptureController.fresh Img) ops).cursor := by
  have hgood : ∀ (s : OperationState Img), GoodState s →
      GoodState (runOps processor s ops) := by
    induction ops with
    | nil => intro s hs; simpa [runOps] using hs
    | cons op ops ih =>
      intro s hs
      have : runOps processor s (op :: ops) =
          runOps processor (applyOp processor s op) ops := rfl
      rw [this]
      exact ih _ (applyOp_good processor s op hs)
  obtain ⟨-, hc, hr, hl⟩ := hgood _ ((goodState_fresh : GoodState (CaptureController.fresh Img)))
  refine ⟨hc, ?_⟩
  rw [hr, hl]
  omega

/-- The composite command sequence `capture(x); undo(); capture(x)`, with
each raised error propagated. -/
def captureUndoCapture {Img Frame : Type} (processor : Frame → Img)
    (s : OperationState Img) (frame : Frame) :
    Except String (OperationState Img) :=
  match CaptureController.capture processor s frame with
  | Except.error e => Except.error e
  | Except.ok s1 =>
    match CaptureController.undo s1 with
    | Except.error e => Except.error e
    | Except.ok s2 => CaptureController.capture processor s2 frame

/-- C8: from any non-complete session state, `capture(x)` followed by
`undo()` followed by `capture(x)` produces exactly the state (cursor and
both image buckets, component-wise) of a single `capture(x)` — the
processor is a function, so the same frame yields the same processed
artifact. -/
theorem capture_undo_capture_idem {Img Frame : Type} (processor : Frame → Img)
    (s : OperationState Img) (frame : Frame) (h : s.cursor < s.total) :
    captureUndoCapture processor s frame =
      CaptureController.capture processor s frame := by
  obtain ⟨ord, c, r, l⟩ := s
  simp only [OperationState.total] at h
  have hnc : (OperationState.mk ord c r l : OperationState Img).is_complete = false := by
    simp [OperationState.is_complete, OperationState.total]
    omega
  obtain ⟨slot, hslot⟩ : ∃ slot, ord[c]? = some slot :=
    ⟨_, List.getElem?_eq_getElem h⟩
  cases heye : slot.eye
  case Right =>
    have hcap : CaptureController.capture processor ⟨ord, c, r, l⟩ frame =
        Except.ok ⟨ord, c + 1, r ++ [processor frame], l⟩ := by
      simp [CaptureController.capture, hnc, SixImagesPolicy.store_image,
        OperationState.current_slot, hslot, heye]
    have hundo :
        CaptureController.undo ⟨ord, c + 1, r ++ [processor frame], l⟩ =
          Except.ok ⟨ord, c, r, l⟩ := by
      simp [CaptureController.undo, hslot, heye, List.dropLast_concat]
    simp [captureUndoCapture, hcap, hundo]
  case Left =>
    have hcap : CaptureController.capture processor ⟨ord, c, r, l⟩ frame =
        Except.ok ⟨ord, c + 1, r, l ++ [processor frame]⟩ := by
      simp [CaptureController.capture, hnc, SixImagesPolicy.store_image,
        OperationState.current_slot, hslot, heye]
    have hundo :
        CaptureController.undo ⟨ord, c + 1, r, l ++ [processor frame]⟩ =
          Except.ok ⟨ord, c, r, l⟩ := by
      simp [CaptureController.undo, hslot, heye, List.dropLast_concat]
    simp [captureUndoCapture, hcap, hundo]

/-- Witness for C8 at the fresh session over `Nat` images. -/
theorem capture_undo_capture_idem_witness :
    captureUndoCapture (fun n : Nat => n + 100)
        (CaptureController.fresh Nat) 7 =
      CaptureController.capture (fun n : Nat => n + 100)
        (CaptureController.fresh Nat) 7 :=
  capture_undo_capture_idem (fun n : Nat => n + 100)
    (CaptureController.fresh Nat) 7 (by decide)

/-- C9: `undo` is total on session states with `cursor ≤ 6` (and the 6-slot
order): it never raises. At `cursor == 0` it is a no-op; otherwise it
decrements the cursor and removes the most recently appended item of the
bucket named by `order[cursor]` read post-decrement (`dropLast`, which
leaves an already-empty bucket unchanged — the defensive pop), touching
nothing else. -/
theorem undo_never_raises {Img : Type} (s : OperationState Img)
    (hcur : s.cursor ≤ 6) (htot : s.total = 6) :
    ∃ s', CaptureController.undo s = Except.ok s' ∧
      (s.cursor = 0 → s' = s) ∧
      (0 < s.cursor →
        s'.order = s.order ∧ s'.cursor = s.cursor - 1 ∧
        ∀ slot, s.order[s.cursor - 1]? = some slot →
          (slot.eye = Eye.Right →
            s'.images_right = s.images_right.dropLast ∧
            s'.images_left = s.images_left) ∧
          (slot.eye = Eye.Left →
            s'.images_left = s.images_left.dropLast ∧
            s'.images_right = s.images_right)) := by
  obtain ⟨ord, c, r, l⟩ := s
  simp only [OperationState.total] at htot
  simp only at hcur ⊢
  by_cases hc : c = 0
  · subst hc
    exact ⟨⟨ord, 0, r, l⟩, by simp [CaptureController.undo],
      fun _ => rfl, by omega⟩
  · have hlt : c - 1 < ord.length := by omega
    obtain ⟨slot, hslot⟩ : ∃ slot, ord[c - 1]? = some slot :=
      ⟨_, List.getElem?_eq_getElem hlt⟩
    have hinj : ∀ slot', ord[c - 1]? = some slot' → slot' = slot := by
      intro slot' h'
      rw [hslot] at h'
      exact (Option.some.injEq _ _ ▸ h').symm
    cases heye : slot.eye
    · -- Right slot
      by_cases hre : r.isEmpty
      · have hr : r = [] := List.isEmpty_iff.mp hre
        refine ⟨⟨ord, c - 1, r, l⟩,
          by simp [CaptureController.undo, hc, hslot, heye, hre],
          by intro h0; exact absurd h0 hc, ?_⟩
        intro _
        refine ⟨rfl, rfl, ?_⟩
        intro slot' hs'
        rw [hinj slot' hs']
        exact ⟨fun _ => ⟨by simp [hr], rfl⟩,
          fun hL => absurd (heye ▸ hL) (by simp)⟩
      · refine ⟨⟨ord, c - 1, r.dropLast, l⟩,
          by simp [CaptureController.undo, hc, hslot, heye, hre],
          by intro h0; exact absurd h0 hc, ?_⟩
        intro _
        refine ⟨rfl, rfl, ?_⟩
        intro slot' hs'
        rw [hinj slot' hs']
        exact ⟨fun _ => ⟨rfl, rfl⟩,
          fun hL => absurd (heye ▸ hL) (by simp)⟩
    · -- Left slot
      by_cases hle : l.isEmpty
      · have hl : l = [] := List.isEmpty_iff.mp hle
        refine ⟨⟨ord, c - 1, r, l⟩,
          by simp [CaptureController.undo, hc, hslot, heye, hle],
          by intro h0; exact absurd h0 hc, ?_⟩
        intro _
        refine ⟨rfl, rfl, ?_⟩
        intro slot' hs'
        rw [hinj slot' hs']
        exact ⟨fun hR => absurd (heye ▸ hR) (by simp),
          fun _ => ⟨by simp [hl], rfl⟩⟩
      · refine ⟨⟨ord, c - 1, r, l.dropLast⟩,
          by simp [CaptureController.undo, hc, hslot, heye, hle],
          by intro h0; exact absurd h0 hc, ?_⟩
        intro _
        refine ⟨rfl, rfl, ?_⟩
        intro slot' hs'
        rw [hinj slot' hs']
        exact ⟨fun hR => absurd (heye ▸ hR) (by simp),
          fun _ => ⟨rfl, rfl⟩⟩

/-- Witness for C9 at the concrete completed state. -/
theorem undo_never_raises_witness :
    ∃ s', CaptureController.undo completedState = Except.ok s' ∧
      (completedState.cursor = 0 → s' = completedState) ∧
      (0 < completedState.cursor →
        s'.order = completedState.order ∧
        s'.cursor = completedState.cursor - 1 ∧
        ∀ slot, completedState.order[completedState.cursor - 1]? = some slot →
          (slot.eye = Eye.Right →
            s'.images_right = completedState.images_right.dropLast ∧
            s'.images_left = completedState.images_left) ∧
          (slot.eye = Eye.Left →
            s'.images_left = completedState.images_left.dropLast ∧
            s'.images_right = completedState.images_right)) :=
  undo_never_raises completedState (by decide) (by decide)

/-- `export_report.ExportReport.export`: raise
`RuntimeError("Capture all 6 images before exporting.")` unless the session
is complete, else delegate the session's two buckets to the report-writer
collaborator (the function argument `writer`). The optional
`onsd_values`/`capture_times` fallbacks read attributes `OperationState`
does not define (`hasattr` is false), so they pass through unchanged. -/
def ExportReport.export_report {Img α : Type}
    (writer : List Img → List Img → α) (s : OperationState Img) :
    Except String α :=
  if s.is_complete = false then
    Except.error "Capture all 6 images before exporting."
  else Except.ok (writer s.images_right s.images_left)

/-- C10: the default export path refuses incomplete sessions — for every
session state with `cursor < 6` (and the 6-slot order) it raises the
"Capture all 6 images before exporting." error before reaching the writer,
producing no output (the state, never mutated here, stays usable); and any
output it does produce comes from a complete session. -/
theorem export_refuses_incomplete {Img α : Type}
    (writer : List Img → List Img → α) (s : OperationState Img)
    (h1 : s.cursor < 6) (h2 : s.total = 6) :
    ExportReport.export_report writer s =
      Except.error "Capture all 6 images before exporting." ∧
    ∀ (s2 : OperationState Img) (res : α),
      ExportReport.export_report writer s2 = Except.ok res →
        s2.is_complete = true := by
  have hnc : s.is_complete = false := by
    simp [OperationState.is_complete, h2]
    omega
  refine ⟨by simp [ExportReport.export_report, hnc], ?_⟩
  intro s2 res hok
  by_cases hcomp : s2.is_complete = true
  · exact hcomp
  · rw [Bool.not_eq_true] at hcomp
    simp [ExportReport.export_report, hcomp] at hok

/-- Witness for C10 at the fresh session over `Nat` images. -/
theorem export_refuses_incomplete_witness :
    ExportReport.export_report (fun r l => (r.length, l.length))
        (CaptureController.fresh Nat) =
      Except.error "Capture all 6 images before exporting." ∧
    ∀ (s2 : OperationState Nat) (res : Nat × Nat),
      ExportReport.export_report (fun r l => (r.length, l.length)) s2 =
          Except.ok res →
        s2.is_complete = true :=
  export_refuses_incomplete (fun r l => (r.length, l.length))
    (CaptureController.fresh Nat) (by decide) (by decide)

/-! ## Rounding

Python's built-in `round` rounds half-to-even (banker's rounding); the
`float` values of the code are modelled as exact rationals. -/

/-- Round-half-to-even to an integer: the tie at `.5` goes to the even
neighbour. This is the semantics of Python's built-in `round`. -/
def roundHalfEven (x : ℚ) : ℤ :=
  if Int.fract x < 1 / 2 then ⌊x⌋
  else if 1 / 2 < Int.fract x then ⌊x⌋ + 1
  else if Even ⌊x⌋ then ⌊x⌋ else ⌊x⌋ + 1

/-- Python's `round(x, 2)`: round-half-even at 2 decimal places. -/
def round2 (x : ℚ) : ℚ := (roundHalfEven (x * 100) : ℚ) / 100

/-- Round-half-away-from-zero to an integer — the rounding mode the spec
claims. -/
def roundHalfAway (x : ℚ) : ℤ :=
  if 0 ≤ x then ⌊x + 1 / 2⌋ else -⌊-x + 1 / 2⌋

/-- The spec's claimed `round(x, 2)`: round-half-away-from-zero at 2
decimal places. -/
def round2away (x : ℚ) : ℚ := (roundHalfAway (x * 100) : ℚ) / 100

/-- `entities.Measurement`: one externally-sourced CSV row; every field
optional (absent on parse failure), numeric fields as exact rationals.
The opaque `raw` bag of untracked extra columns is not modelled: no tracked
field reads it. -/
structure Measurement where
  image_stem : Option String := none
  status : Option String := none
  ond_px : Option ℚ := none
  onsd_px : Option ℚ := none
  ond_mm : Option ℚ := none
  onsd_mm : Option ℚ := none
  depth_mm : Option ℚ := none
  latency_s : Option ℚ := none
  time : Option String := none
deriving DecidableEq

/-- `entities.EyeMeasurements.average_onsd_mm`: collect the non-`None`
`onsd_mm` values; `None` if none remain, else `round(sum/len, 2)`. -/
def EyeMeasurements.average_onsd_mm (measurements : List Measurement) :
    Option ℚ :=
  let valid_values := measurements.filterMap (fun m => m.onsd_mm)
  if valid_values.isEmpty then none
  else some (round2 (valid_values.sum / (valid_values.length : ℚ)))

/-- The spec's per-channel average (§4.4 step 5) with the rounding mode
amended to round-half-even: the arithmetic mean of the present values,
rounded to 2 decimals; missing when every value is missing. -/
def specChannelAverage (slots : List (Option ℚ)) : Option ℚ :=
  let present := slots.filterMap id
  if present.isEmpty then none
  else some (round2 (present.sum / (present.length : ℚ)))

/-- C5 counterexample: a channel whose single present value is 0.125 mm.
The code (Python `round`, half-to-even) averages it to 0.12; the claim's
round-half-away-from-zero semantics demand 0.13. -/
theorem average_rounding_counterexample :
    EyeMeasurements.average_onsd_mm
        [{ onsd_mm := some (1 / 8) }, {}, {}] = some (12 / 100) ∧
    round2away ((1 / 8) / 1) = 13 / 100 ∧
    some ((12 : ℚ) / 100) ≠ some ((13 : ℚ) / 100) := by
  refine ⟨?_, ?_, by norm_num⟩
  · simp [EyeMeasurements.average_onsd_mm, round2, roundHalfEven]
    norm_num [Int.fract]
    rw [if_pos (by decide : Even (12 : ℤ))]
    norm_num
  · simp [round2away, roundHalfAway]
    norm_num

/-- C5 (amended): the per-channel average of `onsd_mm` ignores missing
values; when all are missing it is itself `None` (never coerced to 0);
otherwise it is the arithmetic mean of the present values rounded to 2
decimal places with round-half-to-even (Python `round`) semantics — and
`[2.37, 2.19, 4.92]` still yields `3.16`. -/
theorem average_onsd_mm_spec (ms : List Measurement) :
    EyeMeasurements.average_onsd_mm ms =
      specChannelAverage (ms.map (fun m => m.onsd_mm)) ∧
    EyeMeasurements.average_onsd_mm
        [{ onsd_mm := some (237 / 100) }, { onsd_mm := some (219 / 100) },
         { onsd_mm := some (492 / 100) }] = some (316 / 100) ∧
    EyeMeasurements.average_onsd_mm [{}, {}, {}] = none := by
  refine ⟨?_, ?_, by simp [EyeMeasurements.average_onsd_mm]⟩
  · simp [EyeMeasurements.average_onsd_mm, specChannelAverage,
      List.filterMap_map, Function.comp]
  · simp [EyeMeasurements.average_onsd_mm, round2, roundHalfEven]
    norm_num [Int.fract]

/-- `_build_pdf_single_page`'s local `is_normal`: the average is present
and at most the threshold. -/
def ReportWriter.is_normal (threshold_mm : ℚ) (v : Option ℚ) : Bool :=
  match v with
  | none => false
  | some x => x ≤ threshold_mm

/-- The overall classification drawn by `_build_pdf_single_page`: the
"Normal finding" line iff both averages are present (not `None`) and both
are `is_normal`; any other combination draws the "Abnormal finding" line. -/
def ReportWriter.classified_normal (threshold_mm : ℚ)
    (right_avg left_avg : Option ℚ) : Bool :=
  (right_avg.isSome && left_avg.isSome) &&
    (ReportWriter.is_normal threshold_mm right_avg &&
     ReportWriter.is_normal threshold_mm left_avg)

/-- C6: the record is classified "normal" iff both channel averages are
present and each is at most the threshold; a missing average never defaults
to "normal". With threshold 6.0: averages 3.16 and 4.05 classify normal;
averages 7.0 and 3.0 classify abnormal. -/
theorem classification_conservative :
    (∀ (th : ℚ) (r l : Option ℚ),
      ReportWriter.classified_normal th r l = true ↔
        (∃ x, r = some x ∧ x ≤ th) ∧ (∃ y, l = some y ∧ y ≤ th)) ∧
    ReportWriter.classified_normal 6 (some (316 / 100))
      (some (405 / 100)) = true ∧
    ReportWriter.classified_normal 6 (some 7) (some 3) = false := by
  refine ⟨?_,
    by norm_num [ReportWriter.classified_normal, ReportWriter.is_normal],
    by norm_num [ReportWriter.classified_normal, ReportWriter.is_normal]⟩
  intro th r l
  cases r <;> cases l <;>
    simp [ReportWriter.classified_normal, ReportWriter.is_normal]

/-! ## Report reconciliation (`interface_adapters/report_writer.py`) -/

/-- `ReportWriter._normalize_list`: `None` becomes `length` copies of the
default; otherwise `list(values[:length]) + [default] * max(0, length - len(values))`
(Nat subtraction models the `max(0, ·)`). -/
def ReportWriter.normalize_list {α : Type} (values : Option (List α))
    (length : Nat) (default : α) : List α :=
  match values with
  | none => List.replicate length default
  | some vs => vs.take length ++ List.replicate (length - vs.length) default

/-- The reconciled fixed-width record `ReportWriter.save_report` assembles
and hands to the page renderer: the per-channel image lists, the combined
slot-aligned streams, the derived averages and the classification drawn by
`_build_pdf_single_page`. -/
structure NormalizedReport (Img : Type) where
  right : List (Option Img)
  left : List (Option Img)
  imgs_all : List (Option Img)
  onsd_values : List (Option ℚ)
  capture_times : List String
  ond_values : List (Option ℚ)
  onsd_px_values : List (Option ℚ)
  ond_px_values : List (Option ℚ)
  depth_values : List (Option ℚ)
  latency_values : List (Option ℚ)
  status_values : List (Option String)
  right_avg : Option ℚ
  left_avg : Option ℚ
  normal_finding : Bool
deriving DecidableEq

/-- Data part of `ReportWriter.save_report`: normalize the image lists to 3
per channel (`None`-padded), every measurement stream to 6 entries, the
timestamps and statuses with the `"—"` sentinel, then compute the
per-channel `onsd` averages ignoring `None` and the classification. The
actual PNG/PDF encoding and file paths are the excluded rendering
collaborator. -/
def ReportWriter.save_report {Img : Type} (threshold_mm : ℚ)
    (images_right images_left : List Img)
    (onsd_values : Option (List (Option ℚ)))
    (capture_times : Option (List String))
    (ond_values : Option (List (Option ℚ)))
    (onsd_px_values : Option (List (Option ℚ)))
    (ond_px_values : Option (List (Option ℚ)))
    (depth_values : Option (List (Option ℚ)))
    (latency_values : Option (List (Option ℚ)))
    (status_values : Option (List (Option String))) :
    NormalizedReport Img :=
  let right : List (Option Img) :=
    (images_right.take 3).map some ++
      List.replicate (3 - images_right.length) none
  let left : List (Option Img) :=
    (images_left.take 3).map some ++
      List.replicate (3 - images_left.length) none
  let imgs_all := right ++ left
  let onsd : List (Option ℚ) :=
    match onsd_values with
    | none => List.replicate 6 none
    | some vs => vs.take 6 ++ List.replicate (6 - vs.length) none
  let times : List String :=
    match capture_times with
    | none => List.replicate 6 "—"
    | some ts => ts.take 6 ++ List.replicate (6 - ts.length) "—"
  let ond := ReportWriter.normalize_list ond_values 6 none
  let onsd_px := ReportWriter.normalize_list onsd_px_values 6 none
  let ond_px := ReportWriter.normalize_list ond_px_values 6 none
  let depth := ReportWriter.normalize_list depth_values 6 none
  let latency := ReportWriter.normalize_list latency_values 6 none
  let status := ReportWriter.normalize_list status_values 6 (some "—")
  let r_vals := (onsd.take 3).filterMap id
  let l_vals := (onsd.drop 3).filterMap id
  let right_avg :=
    if r_vals.isEmpty then none
    else some (round2 (r_vals.sum / (r_vals.length : ℚ)))
  let left_avg :=
    if l_vals.isEmpty then none
    else some (round2 (l_vals.sum / (l_vals.length : ℚ)))
  { right := right, left := left, imgs_all := imgs_all,
    onsd_values := onsd, capture_times := times, ond_values := ond,
    onsd_px_values := onsd_px, ond_px_values := ond_px,
    depth_values := depth, latency_values := latency,
    status_values := status, right_avg := right_avg, left_avg := left_avg,
    normal_finding :=
      ReportWriter.classified_normal threshold_mm right_avg left_avg }

/-- C4: for input image/measurement/timestamp lists of any length up to 10,
every list of the produced record has the fixed width — each channel's
image list is truncated to 3 and `None`-padded, and every per-field
measurement/timestamp/status list is truncated to 6 and padded with `None`
(with the `"—"` sentinel for timestamps and statuses) — so all six-slot
lists have length exactly 6. -/
theorem save_report_fixed_width {Img : Type} (th : ℚ)
    (ir il : List Img) (onsd : List (Option ℚ)) (ts : List String)
    (ond onsdpx ondpx depth lat : List (Option ℚ))
    (st : List (Option String))
    (hir : ir.length ≤ 10) (hil : il.length ≤ 10)
    (honsd : onsd.length ≤ 10) (hts : ts.length ≤ 10)
    (hond : ond.length ≤ 10) (honsdpx : onsdpx.length ≤ 10)
    (hondpx : ondpx.length ≤ 10) (hdepth : depth.length ≤ 10)
    (hlat : lat.length ≤ 10) (hst : st.length ≤ 10) :
    ∀ rep : NormalizedReport Img,
      rep = ReportWriter.save_report th ir il (some onsd) (some ts)
        (some ond) (some onsdpx) (some ondpx) (some depth) (some lat)
        (some st) →
      rep.right = (ir.take 3).map some ++
          List.replicate (3 - ir.length) none ∧
      rep.right.length = 3 ∧
      rep.left = (il.take 3).map some ++
          List.replicate (3 - il.length) none ∧
      rep.left.length = 3 ∧
      rep.imgs_all.length = 6 ∧
      rep.onsd_values = onsd.take 6 ++
          List.replicate (6 - onsd.length) none ∧
      rep.onsd_values.length = 6 ∧
      rep.capture_times = ts.take 6 ++
          List.replicate (6 - ts.length) "—" ∧
      rep.capture_times.length = 6 ∧
      rep.status_values = st.take 6 ++
          List.replicate (6 - st.length) (some "—") ∧
      rep.status_values.length = 6 ∧
      rep.ond_values.length = 6 ∧
      rep.onsd_px_values.length = 6 ∧
      rep.ond_px_values.length = 6 ∧
      rep.depth_values.length = 6 ∧
      rep.latency_values.length = 6 := by
  intro rep hrep
  subst hrep
  refine ⟨rfl, ?_, rfl, ?_, ?_, rfl, ?_, rfl, ?_, rfl, ?_, ?_, ?_, ?_, ?_, ?_⟩ <;>
    simp [ReportWriter.save_report, ReportWriter.normalize_list,
      List.length_take] <;>
    omega

/-- Concrete inputs instantiating the C4 theorem. -/
def w4onsd : List (Option ℚ) := [some (237 / 100), none]

/-- Concrete status inputs instantiating the C4 theorem. -/
def w4st : List (Option String) := [none, some "ok"]

/-- The record produced from the concrete C4 inputs. -/
def w4rep : NormalizedReport Nat :=
  ReportWriter.save_report 6 [1, 2] [] (some w4onsd) (some ["08:00:00"])
    (some []) (some []) (some []) (some []) (some []) (some w4st)

/-- Witness for C4 at concrete two-image, short-list inputs. -/
theorem save_report_fixed_width_witness :
    w4rep.right = (([1, 2] : List Nat).take 3).map some ++
        List.replicate (3 - ([1, 2] : List Nat).length) none ∧
    w4rep.right.length = 3 ∧
    w4rep.left = (([] : List Nat).take 3).map some ++
        List.replicate (3 - ([] : List Nat).length) none ∧
    w4rep.left.length = 3 ∧
    w4rep.imgs_all.length = 6 ∧
    w4rep.onsd_values = w4onsd.take 6 ++
        List.replicate (6 - w4onsd.length) none ∧
    w4rep.onsd_values.length = 6 ∧
    w4rep.capture_times = ["08:00:00"].take 6 ++
        List.replicate (6 - (["08:00:00"] : List String).length) "—" ∧
    w4rep.capture_times.length = 6 ∧
    w4rep.status_values = w4st.take 6 ++
        List.replicate (6 - w4st.length) (some "—") ∧
    w4rep.status_values.length = 6 ∧
    w4rep.ond_values.length = 6 ∧
    w4rep.onsd_px_values.length = 6 ∧
    w4rep.ond_px_values.length = 6 ∧
    w4rep.depth_values.length = 6 ∧
    w4rep.latency_values.length = 6 :=
  save_report_fixed_width 6 [1, 2] [] w4onsd ["08:00:00"] [] [] [] [] []
    w4st (by decide) (by decide) (by decide) (by decide) (by decide)
    (by decide) (by decide) (by decide) (by decide) (by decide) w4rep rfl

/-- The deterministic placeholder timestamps
(`f"12:0{i}:00" for i in range(6)`) that `export_with_csv_measurements`
falls back to when fewer than 6 authoritative capture times are supplied. -/
def default_capture_times : List String :=
  ["12:00:00", "12:01:00", "12:02:00", "12:03:00", "12:04:00", "12:05:00"]

/-- The `while len(vs) < 6: vs.append(d)` padding loops of
`export_with_csv_measurements`. -/
def padTo6 {α : Type} (vs : List α) (d : α) : List α :=
  vs ++ List.replicate (6 - vs.length) d

/-- A measurement row with its embedded CSV timestamp erased. -/
def Measurement.without_time (m : Measurement) : Measurement :=
  { m with time := none }

/-- `export_report.ExportReport.export_with_csv_measurements`: extract
every measurement stream from the CSV rows **except** the row timestamps;
use the supplied capture times when there are at least 6 of them
(truncated to 6; a `None`/empty argument is falsy), otherwise the
deterministic placeholder sequence; pad every stream to 6 entries and
delegate to `save_report`. `measurements` stands for the rows that
`MeasurementLoader.load_measurements(max_rows=6)` returned. -/
def ExportReport.export_with_csv_measurements {Img : Type}
    (threshold_mm : ℚ) (images_right images_left : List Img)
    (measurements : List Measurement)
    (capture_times : Option (List String)) : NormalizedReport Img :=
  let onsd_values := measurements.map (fun m => m.onsd_mm)
  let ond_values := measurements.map (fun m => m.ond_mm)
  let onsd_px_values := measurements.map (fun m => m.onsd_px)
  let ond_px_values := measurements.map (fun m => m.ond_px)
  let depth_values := measurements.map (fun m => m.depth_mm)
  let latency_values := measurements.map (fun m => m.latency_s)
  let status_values := measurements.map (fun m => m.status)
  let final_capture_times :=
    match capture_times with
    | some ts =>
        if 6 ≤ ts.length then ts.take 6 else default_capture_times
    | none => default_capture_times
  ReportWriter.save_report threshold_mm images_right images_left
    (some (padTo6 onsd_values none))
    (some (padTo6 final_capture_times "—"))
    (some (padTo6 ond_values none))
    (some (padTo6 onsd_px_values none))
    (some (padTo6 ond_px_values none))
    (some (padTo6 depth_values none))
    (some (padTo6 latency_values none))
    (some (padTo6 status_values none))

/-- C7: the timestamps embedded in the measurement rows are never used —
erasing them changes nothing in the produced record; when at least 6
authoritative capture timestamps are supplied, the record carries exactly
their first 6, even where they disagree with the rows; with fewer than 6,
the record carries the deterministic placeholder sequence (6 pairwise
distinct entries, so no timestamp is silently reused for an unrelated
slot), and the `"—"`-padding loop guarantees width 6 at minimum. -/
theorem timestamp_override {Img : Type} (th : ℚ) (ir il : List Img)
    (ms : List Measurement) (cts : Option (List String)) :
    ExportReport.export_with_csv_measurements th ir il ms cts =
      ExportReport.export_with_csv_measurements th ir il
        (ms.map Measurement.without_time) cts ∧
    (∀ ts, cts = some ts → 6 ≤ ts.length →
      (ExportReport.export_with_csv_measurements th ir il ms
          cts).capture_times = ts.take 6) ∧
    ((∀ ts, cts = some ts → ts.length < 6) →
      (ExportReport.export_with_csv_measurements th ir il ms
          cts).capture_times = default_capture_times) ∧
    default_capture_times.length = 6 ∧ default_capture_times.Nodup := by
  have hdefault :
      (ExportReport.export_with_csv_measurements th ir il ms
          none).capture_times = default_capture_times := by
    simp [ExportReport.export_with_csv_measurements,
      ReportWriter.save_report, padTo6, default_capture_times]
  refine ⟨?_, ?_, ?_, by decide, by decide⟩
  · simp only [ExportReport.export_with_csv_measurements, List.map_map]
    rfl
  · intro ts hts h6
    subst hts
    have hlen : (ts.take 6).length = 6 := by
      simp [List.length_take]
      omega
    simp [ExportReport.export_with_csv_measurements, h6,
      ReportWriter.save_report, padTo6, hlen,
      List.take_of_length_le (le_of_eq hlen)]
  · intro hshort
    cases cts with
    | none => exact hdefault
    | some ts =>
      have hlt : ts.length < 6 := hshort ts rfl
      simp [ExportReport.export_with_csv_measurements,
        Nat.not_le.mpr hlt, ReportWriter.save_report, padTo6,
        default_capture_times]

/-- Witness for C7: six authoritative timestamps win over a row timestamp
that disagrees. -/
theorem timestamp_override_witness :
    (ExportReport.export_with_csv_measurements 6 ([] : List Nat) []
        [{ onsd_mm := some 1, time := some "99:99:99" }]
        (some ["a", "b", "c", "d", "e", "f"])).capture_times =
      (["a", "b", "c", "d", "e", "f"] : List String).take 6 :=
  (timestamp_override 6 ([] : List Nat) []
      [{ onsd_mm := some 1, time := some "99:99:99" }]
      (some ["a", "b", "c", "d", "e", "f"])).2.1
    ["a", "b", "c", "d", "e", "f"] rfl (by decide)

end UltraApp
